import Mathlib

/-!
Shallow embedding of the poll bot (src/main.rs, src/poll.rs).

The program keeps an in-memory registry `POLLS : HashMap<InteractionId, PollData>`
behind a readers-writer lock.  `start` parses the comma-separated option input,
posts the initial poll message and, on success, inserts a fresh `PollData`.
`vote` looks the record up by the originating interaction id, records the vote
in the `votes` ledger, rebuilds the button row from the pressed message and
pushes an updated display.  `cleaner` periodically removes records older than
a configured duration.

Modelling choices:
- `InteractionId` and `UserId` are `Nat`; `tokio::time::Instant` is a `Nat`
  timestamp (monotonic; `elapsed = now - start_time` with truncated
  subtraction, as `Instant` can never be later than `now`).
- `HashMap<InteractionId, PollData>` is the function `Nat → Option PollData`
  (extensionally faithful: the map's contents, not its bucket layout).
- `HashMap<UserId, String>` (the vote ledger) is a canonical association list:
  `insert` removes any entry for the key and appends the new pair, which is
  exactly `HashMap::insert`'s map semantics.
- Network calls (`create_interaction_response`) are oracles passed in as
  booleans: the call either succeeds or fails, and the model records the store
  effect on each side, mirroring the `?`-propagation points of the source.
- `anyhow` error contexts become constructors of `PollError`, one per
  `.context(...)` / `bail!` site of poll.rs.
-/

namespace Slashbot

/-- Model of `serde_json::Value` as used by `start`: the `"options"` command
option value is either a string (`as_str` succeeds) or something else. -/
inductive Value where
  | str (s : String)
  | other
deriving DecidableEq

/-- One entry of `command.options` (serenity
`ApplicationCommandInteractionDataOption`): a name and an optional value. -/
structure CommandOption where
  name : String
  value : Option Value
deriving DecidableEq

/-- `PollData` from src/poll.rs lines 183-187. -/
structure PollData where
  start_time : Nat
  options : List String
  votes : List (Nat × String)
deriving DecidableEq

/-- The poll registry `POLLS`, as a map from interaction id to record. -/
abbrev Store := Nat → Option PollData

/-- The failure points of poll.rs, one constructor per `context`/`bail!` site. -/
inductive PollError where
  | missingOptions
  | missingOptionsValue
  | invalidOptionsValue
  | noOptions
  | createResponseFailed
  | unknownPoll
  | missingMember
  | missingMessage
  | invalidMessageType
  | missingActionRow
  | invalidComponent
  | missingCustomId
  | unexpectedComponent
  | updateFailed
deriving DecidableEq

/-- Rust `str::split(',')` on the string's character sequence: split at every
comma, keeping empty pieces (`"".split(",")` yields one empty piece). -/
def splitComma : List Char → List (List Char)
  | [] => [[]]
  | c :: rest =>
    if c = ',' then [] :: splitComma rest
    else
      match splitComma rest with
      | [] => [[c]]
      | piece :: pieces => (c :: piece) :: pieces

/-- `raw.split(",").filter(|s| !s.is_empty())` from start (poll.rs 55-57):
Rust's `str::is_empty` is emptiness of the character sequence. -/
def tokens (raw : String) : List String :=
  ((splitComma raw.data).filter (fun p => !p.isEmpty)).map (fun p => String.mk p)

/-- Lexicographic comparison of character sequences by code point, which is
exactly Rust's `str` ordering (UTF-8 byte order agrees with code-point
order). -/
def leChars : List Char → List Char → Bool
  | [], _ => true
  | _ :: _, [] => false
  | a :: as, b :: bs =>
    if a.toNat < b.toNat then true
    else if a.toNat = b.toNat then leChars as bs else false

/-- The `Ord`-order on Rust `&str` as a relation on the embedded strings. -/
def strLe (a b : String) : Prop :=
  leChars a.data b.data = true

instance : DecidableRel strLe := fun a b =>
  inferInstanceAs (Decidable (leChars a.data b.data = true))

/-- `options.sort()` (poll.rs 61): Rust's stable sort by `str`'s
lexicographic order.  A sorted permutation is unique for a total antisymmetric
order, so insertion sort produces the same list as Rust's mergesort. -/
def sortOptions (l : List String) : List String :=
  List.insertionSort strLe l

/-- `options.dedup()` (poll.rs 62): removes only *consecutive* duplicates. -/
def rustDedup : List String → List String
  | [] => []
  | [a] => [a]
  | a :: b :: rest =>
    if a = b then rustDedup (b :: rest) else a :: rustDedup (b :: rest)

/-- The full option-input pipeline of `start`: split on commas, drop empty
entries, sort, dedup (poll.rs 55-62). -/
def parseOptions (raw : String) : List String :=
  rustDedup (sortOptions (tokens raw))

/-- Removal of leading and trailing whitespace from a character sequence
(`str::trim`). -/
def trimChars (cs : List Char) : List Char :=
  ((cs.dropWhile Char.isWhitespace).reverse.dropWhile Char.isWhitespace).reverse

/-- Modelled from the spec's words for comparison (§4.4 "drop empty entries
after trimming"; the claim's "trims each entry"): the same pipeline but with
each entry trimmed before the emptiness filter.  The source (poll.rs 55-57)
never trims; this definition exists only to exhibit the difference. -/
def parseOptionsSpec (raw : String) : List String :=
  rustDedup (sortOptions
    ((((splitComma raw.data).map trimChars).filter (fun p => !p.isEmpty)).map
      (fun p => String.mk p)))

/-- `HashMap::insert` on the store. -/
def insertStore (id : Nat) (pd : PollData) (store : Store) : Store :=
  fun k => if k = id then some pd else store k

/-- `poll_data.votes.insert(user_id, custom_id)` (poll.rs 115):
maps `user` to `optionId`, leaving every other voter's entry unchanged. -/
def insertVote (user : Nat) (optionId : String) (votes : List (Nat × String)) :
    List (Nat × String) :=
  (votes.filter fun p => p.1 != user) ++ [(user, optionId)]

/-- `HashMap::get` on the vote ledger. -/
def lookupVote (user : Nat) (votes : List (Nat × String)) : Option String :=
  (votes.find? fun p => p.1 == user).map Prod.snd

/-- `PollData::votes_for` (poll.rs 190-198): count the ledger values equal to
`voteId`. -/
def PollData.votes_for (pd : PollData) (voteId : String) : Nat :=
  pd.votes.foldl (fun acc p => if p.2 = voteId then acc + 1 else acc) 0

/-- The number of distinct voters present in a ledger (the claim's metric). -/
def distinctVoters (pd : PollData) : Nat :=
  ((pd.votes.map Prod.fst).dedup).length

/-- Input to `start`: the interaction id and the command data options. -/
structure StartEvent where
  id : Nat
  options : List CommandOption
deriving DecidableEq

/-- `start` (poll.rs 39-96).  `createOk` is the outcome of the
`create_interaction_response` network call; `now` is `Instant::now()`.
Returns the `anyhow::Result` together with the store after the call. -/
def start (ev : StartEvent) (createOk : Bool) (now : Nat) (store : Store) :
    Except PollError Unit × Store :=
  match ev.options.find? (fun o => o.name == "options") with
  | none => (.error .missingOptions, store)
  | some opt =>
    match opt.value with
    | none => (.error .missingOptionsValue, store)
    | some .other => (.error .invalidOptionsValue, store)
    | some (.str raw) =>
      let toks := tokens raw
      if toks.isEmpty then (.error .noOptions, store)
      else
        let pd : PollData :=
          { start_time := now, options := rustDedup (sortOptions toks), votes := [] }
        if createOk then (.ok (), insertStore ev.id pd store)
        else (.error .createResponseFailed, store)

/-- Model of serenity's `Component` tree as inspected by `vote`
(poll.rs 124-141): an action row holding components, a button with an
optional custom id, or any other component kind. -/
inductive ComponentModel where
  | actionRow (components : List ComponentModel)
  | button (customId : Option String)
  | other

/-- Model of serenity's `InteractionMessage`: `vote` only accepts the
`Regular` variant (poll.rs 124-128). -/
inductive InteractionMessageModel where
  | regular (components : List ComponentModel)
  | other

/-- The button-row rebuild loop of `vote` (poll.rs 129-141): every component
of the pressed message's first action row must be a button with a custom id;
each is rebuilt with the current `votes_for` count. -/
def buildButtons (pd : PollData) : List ComponentModel → Except PollError (List (String × Nat))
  | [] => .ok []
  | .button customId :: rest =>
    match customId with
    | none => .error .missingCustomId
    | some cid =>
      match buildButtons pd rest with
      | .error e => .error e
      | .ok tail => .ok ((cid, pd.votes_for cid) :: tail)
  | .actionRow _ :: _ => .error .unexpectedComponent
  | .other :: _ => .error .unexpectedComponent

/-- Input to `vote`: the pieces of the button-press interaction it reads.
`member` is `interaction.member.user.id`; `customId` is
`component.custom_id`; `message` is `interaction.message`; `updateOk` is the
outcome of the `create_interaction_response` (UpdateMessage) network call. -/
structure VoteEvent where
  member : Option Nat
  customId : String
  message : Option InteractionMessageModel
  updateOk : Bool

/-- `vote` (poll.rs 98-156).  The store is looked up under the originating
interaction id; on a hit the ledger insert (line 115) mutates the stored
record in place, so later failures (bad message shape, failed display update)
leave the vote recorded — the model returns the mutated store on every path
past line 115. -/
def vote (ev : VoteEvent) (interactionId : Nat) (store : Store) :
    Except PollError Unit × Store :=
  match store interactionId with
  | none => (.error .unknownPoll, store)
  | some pd =>
    match ev.member with
    | none => (.error .missingMember, store)
    | some userId =>
      let pd' : PollData := { pd with votes := insertVote userId ev.customId pd.votes }
      let store' : Store := insertStore interactionId pd' store
      match ev.message with
      | none => (.error .missingMessage, store')
      | some .other => (.error .invalidMessageType, store')
      | some (.regular comps) =>
        match comps.head? with
        | none => (.error .missingActionRow, store')
        | some (.actionRow rowComps) =>
          match buildButtons pd' rowComps with
          | .error e => (.error e, store')
          | .ok _ =>
            if ev.updateOk then (.ok (), store') else (.error .updateFailed, store')
        | some (.button _) => (.error .invalidComponent, store')
        | some .other => (.error .invalidComponent, store')

/-- One sweep of `cleaner` (poll.rs 161-173): collect every key whose record
satisfies `start_time.elapsed() > poll_duration` (i.e. `now - start_time >
poll_duration`) and remove those keys. -/
def sweep (now poll_duration : Nat) (store : Store) : Store :=
  fun k =>
    match store k with
    | none => none
    | some pd => if now - pd.start_time > poll_duration then none else some pd

/-- The store-affecting operations of the program: a reaper sweep, a vote,
and a poll start. -/
inductive Op where
  | sweepOp (now poll_duration : Nat)
  | voteOp (ev : VoteEvent) (interactionId : Nat)
  | startOp (ev : StartEvent) (createOk : Bool) (now : Nat)

/-- The effect of one operation on the store. -/
def applyOp (store : Store) : Op → Store
  | .sweepOp n d => sweep n d store
  | .voteOp ev id => (vote ev id store).2
  | .startOp ev ok now => (start ev ok now store).2

/-- The effect of a sequence of operations on the store. -/
def applyOps (ops : List Op) (store : Store) : Store :=
  ops.foldl applyOp store

/-- A sequence of votes cast by voter `u` on one poll, applied to a ledger:
each vote is the ledger insert of poll.rs 115. -/
def castVotes (u : Nat) (opts : List String) (votes : List (Nat × String)) :
    List (Nat × String) :=
  opts.foldl (fun acc o => insertVote u o acc) votes

/-! ### The option order is a total, transitive, antisymmetric relation -/

theorem leChars_cons_iff {a b : Char} {as bs : List Char} :
    leChars (a :: as) (b :: bs) = true ↔
      a.toNat < b.toNat ∨ (a.toNat = b.toNat ∧ leChars as bs = true) := by
  by_cases h1 : a.toNat < b.toNat
  · simp [leChars, h1]
  · by_cases h2 : a.toNat = b.toNat
    · simp [leChars, h1, h2]
    · simp [leChars, h1, h2]

theorem leChars_total : ∀ as bs : List Char, leChars as bs = true ∨ leChars bs as = true
  | [], _ => Or.inl rfl
  | _ :: _, [] => Or.inr rfl
  | a :: as, b :: bs => by
    rcases Nat.lt_trichotomy a.toNat b.toNat with h | h | h
    · exact Or.inl (leChars_cons_iff.mpr (Or.inl h))
    · rcases leChars_total as bs with h' | h'
      · exact Or.inl (leChars_cons_iff.mpr (Or.inr ⟨h, h'⟩))
      · exact Or.inr (leChars_cons_iff.mpr (Or.inr ⟨h.symm, h'⟩))
    · exact Or.inr (leChars_cons_iff.mpr (Or.inl h))

theorem leChars_trans : ∀ as bs cs : List Char,
    leChars as bs = true → leChars bs cs = true → leChars as cs = true
  | [], _, _, _, _ => rfl
  | _ :: _, [], _, h1, _ => by simp [leChars] at h1
  | _ :: _, _ :: _, [], _, h2 => by simp [leChars] at h2
  | a :: as, b :: bs, c :: cs, h1, h2 => by
    rw [leChars_cons_iff] at h1 h2 ⊢
    rcases h1 with h1 | ⟨h1e, h1r⟩
    · rcases h2 with h2 | ⟨h2e, _⟩
      · exact Or.inl (Nat.lt_trans h1 h2)
      · exact Or.inl (h2e ▸ h1)
    · rcases h2 with h2 | ⟨h2e, h2r⟩
      · exact Or.inl (h1e ▸ h2)
      · exact Or.inr ⟨h1e.trans h2e, leChars_trans as bs cs h1r h2r⟩

theorem char_toNat_injective {a b : Char} (h : a.toNat = b.toNat) : a = b := by
  have := congrArg Char.ofNat h
  rwa [Char.ofNat_toNat, Char.ofNat_toNat] at this

theorem leChars_antisymm : ∀ as bs : List Char,
    leChars as bs = true → leChars bs as = true → as = bs
  | [], [], _, _ => rfl
  | [], _ :: _, _, h2 => by simp [leChars] at h2
  | _ :: _, [], h1, _ => by simp [leChars] at h1
  | a :: as, b :: bs, h1, h2 => by
    rw [leChars_cons_iff] at h1 h2
    rcases h1 with h1 | ⟨h1e, h1r⟩
    · rcases h2 with h2 | ⟨h2e, _⟩
      · exact absurd h1 (Nat.lt_asymm h2)
      · exact absurd h1 (h2e ▸ Nat.lt_irrefl _)
    · rcases h2 with h2 | ⟨h2e, h2r⟩
      · exact absurd h2 (h1e ▸ Nat.lt_irrefl _)
      · rw [char_toNat_injective h1e, leChars_antisymm as bs h1r h2r]

instance : IsTotal String strLe :=
  ⟨fun a b => leChars_total a.data b.data⟩

instance : IsTrans String strLe :=
  ⟨fun a b c => leChars_trans a.data b.data c.data⟩

instance : IsAntisymm String strLe :=
  ⟨fun a b h1 h2 => by
    have h := leChars_antisymm a.data b.data h1 h2
    cases a; cases b; exact congrArg String.mk h⟩

/-- Sorting depends only on the multiset of entries: a sorted permutation is
unique for a total, transitive, antisymmetric order. -/
theorem sortOptions_eq_of_perm {l₁ l₂ : List String} (h : l₁.Perm l₂) :
    sortOptions l₁ = sortOptions l₂ :=
  List.eq_of_perm_of_sorted
    (((List.perm_insertionSort strLe l₁).trans h).trans
      (List.perm_insertionSort strLe l₂).symm)
    (List.sorted_insertionSort strLe l₁) (List.sorted_insertionSort strLe l₂)

/-! ### Store-effect helpers for `vote` and `start` -/

/-- Once the record and the member are found, every path of `vote` — the
successful one and each failure after poll.rs line 115 — leaves the store
with the ledger insert applied to the looked-up record. -/
theorem vote_snd_eq_insert (ev : VoteEvent) (id : Nat) (store : Store)
    (pd : PollData) (u : Nat) (hid : store id = some pd) (hm : ev.member = some u) :
    (vote ev id store).2 =
      insertStore id { pd with votes := insertVote u ev.customId pd.votes } store := by
  unfold vote
  rw [hid, hm]
  dsimp only
  repeat' split
  all_goals rfl

/-- `vote` never touches a store entry other than the one it votes on. -/
theorem vote_snd_frame (ev : VoteEvent) (id : Nat) (store : Store) :
    ∀ k, k ≠ id → (vote ev id store).2 k = store k := by
  intro k hk
  unfold vote
  repeat' split
  all_goals first
  | rfl
  | (simp [insertStore, hk]; done)
  | (dsimp only; split <;> simp [insertStore, hk])

/-- `vote` never adds a store entry: an absent key stays absent. -/
theorem vote_snd_absent (ev : VoteEvent) (id k : Nat) (store : Store)
    (h : store k = none) : (vote ev id store).2 k = none := by
  rcases hid : store id with _ | pd
  · unfold vote
    rw [hid]
    exact h
  · have hk : k ≠ id := fun he => by rw [he, hid] at h; cases h
    rw [vote_snd_frame ev id store k hk]
    exact h

/-- `start` never touches a store entry other than its own interaction id. -/
theorem start_snd_frame (ev : StartEvent) (createOk : Bool) (now : Nat)
    (store : Store) :
    ∀ k, k ≠ ev.id → (start ev createOk now store).2 k = store k := by
  intro k hk
  unfold start
  repeat' split
  all_goals first
  | rfl
  | (simp [insertStore, hk]; done)
  | (dsimp only; split <;> simp [insertStore, hk])

/-- A sweep never adds a store entry. -/
theorem sweep_snd_absent (now poll_duration k : Nat) (store : Store)
    (h : store k = none) : sweep now poll_duration store k = none := by
  unfold sweep
  rw [h]

/-! ### Vote-ledger lemmas -/

theorem find?_filter_ne_key (u : Nat) (l : List (Nat × String)) :
    (l.filter fun p => p.1 != u).find? (fun p => p.1 == u) = none := by
  apply List.find?_eq_none.mpr
  intro x hx
  have hne := (List.mem_filter.mp hx).2
  simpa using hne

theorem lookupVote_insertVote (u : Nat) (o : String) (l : List (Nat × String)) :
    lookupVote u (insertVote u o l) = some o := by
  unfold lookupVote insertVote
  rw [List.find?_append, find?_filter_ne_key]
  simp [List.find?]

theorem insertVote_idem (u : Nat) (o : String) (l : List (Nat × String)) :
    insertVote u o (insertVote u o l) = insertVote u o l := by
  unfold insertVote
  rw [List.filter_append, List.filter_filter]
  simp

theorem castVotes_cons (u : Nat) (o : String) (opts : List String)
    (votes : List (Nat × String)) :
    castVotes u (o :: opts) votes = castVotes u opts (insertVote u o votes) := rfl

theorem lookupVote_castVotes (u : Nat) :
    ∀ (opts : List String) (votes : List (Nat × String)) (h : opts ≠ []),
      lookupVote u (castVotes u opts votes) = some (opts.getLast h)
  | [], _, h => absurd rfl h
  | [o], votes, _ => by
    rw [castVotes_cons]
    exact lookupVote_insertVote u o votes
  | o :: o' :: rest, votes, _ => by
    rw [castVotes_cons, List.getLast_cons (List.cons_ne_nil o' rest)]
    exact lookupVote_castVotes u (o' :: rest) (insertVote u o votes)
      (List.cons_ne_nil o' rest)

/-! ### Tally-counting lemmas -/

theorem votes_for_eq_countP (pd : PollData) (o : String) :
    pd.votes_for o = pd.votes.countP (fun p => p.2 == o) := by
  unfold PollData.votes_for
  have key : ∀ (l : List (Nat × String)) (acc : Nat),
      l.foldl (fun acc p => if p.2 = o then acc + 1 else acc) acc =
        acc + l.countP (fun p => p.2 == o) := by
    intro l
    induction l with
    | nil => intro acc; simp
    | cons p rest ih =>
      intro acc
      rw [List.foldl_cons, List.countP_cons]
      by_cases h : p.2 = o
      · rw [if_pos h, ih (acc + 1)]
        simp [h]
        omega
      · rw [if_neg h, ih acc]
        simp [h]
  simpa using key pd.votes 0

theorem sum_map_add_nat (l : List String) (f g : String → Nat) :
    (l.map (fun o => f o + g o)).sum = (l.map f).sum + (l.map g).sum := by
  induction l with
  | nil => rfl
  | cons a l ih =>
    simp only [List.map_cons, List.sum_cons, ih]
    omega

theorem sum_indicator_zero (x : String) :
    ∀ (l : List String), x ∉ l →
      (l.map (fun o => if x = o then 1 else 0)).sum = 0 := by
  intro l
  induction l with
  | nil => intro _; rfl
  | cons a l ih =>
    intro hx
    have hne : x ≠ a := fun h => hx (h ▸ List.mem_cons_self a l)
    have hmem : x ∉ l := fun h => hx (List.mem_cons_of_mem a h)
    simp [hne, ih hmem]

theorem sum_indicator_one (x : String) :
    ∀ (l : List String), l.Nodup → x ∈ l →
      (l.map (fun o => if x = o then 1 else 0)).sum = 1 := by
  intro l
  induction l with
  | nil => intro _ hx; cases hx
  | cons a l ih =>
    intro hnd hx
    rcases List.mem_cons.mp hx with h | h
    · subst h
      have hnotmem : x ∉ l := (List.nodup_cons.mp hnd).1
      simp [sum_indicator_zero x l hnotmem]
    · have hne : x ≠ a := fun he => (List.nodup_cons.mp hnd).1 (he ▸ h)
      simp [hne, ih (List.nodup_cons.mp hnd).2 h]

/-- The accounting identity behind the tally: if the options are
duplicate-free and every vote's chosen option is one of them, summing the
per-option counts over the options counts every ledger entry exactly once. -/
theorem sum_countP_eq_length (options : List String) (hopts : options.Nodup) :
    ∀ votes : List (Nat × String), (∀ p ∈ votes, p.2 ∈ options) →
      (options.map (fun o => votes.countP (fun p => p.2 == o))).sum = votes.length := by
  intro votes
  induction votes with
  | nil => intro _; simp
  | cons p rest ih =>
    intro hvals
    have hmem : p.2 ∈ options := hvals p (List.mem_cons_self p rest)
    have hrest : ∀ q ∈ rest, q.2 ∈ options :=
      fun q hq => hvals q (List.mem_cons_of_mem p hq)
    have step : (options.map (fun o => (p :: rest).countP (fun q => q.2 == o))).sum =
        (options.map (fun o =>
          rest.countP (fun q => q.2 == o) + if p.2 = o then 1 else 0)).sum := by
      congr 1
      apply List.map_congr_left
      intro o _
      rw [List.countP_cons]
      simp only [beq_iff_eq]
    rw [step, sum_map_add_nat, ih hrest, sum_indicator_one p.2 options hopts hmem,
      List.length_cons]

/-- A key absent from the store stays absent under any sequence of sweeps,
votes, and starts keyed elsewhere (poll ids are freshly issued per poll, so
no start ever reuses a removed key). -/
theorem absent_stays_absent (k : Nat) :
    ∀ (ops : List Op) (store : Store), store k = none →
      (∀ ev createOk n, Op.startOp ev createOk n ∈ ops → ev.id ≠ k) →
      applyOps ops store k = none
  | [], _, h, _ => h
  | op :: rest, store, h, hstart => by
    have habs : applyOp store op k = none := by
      cases op with
      | sweepOp n d => exact sweep_snd_absent n d k store h
      | voteOp ev id => exact vote_snd_absent ev id k store h
      | startOp ev createOk n =>
        have hne : k ≠ ev.id :=
          fun he => hstart ev createOk n (List.mem_cons_self _ _) he.symm
        show (start ev createOk n store).2 k = none
        rw [start_snd_frame ev createOk n store k hne]
        exact h
    have hrest : ∀ ev createOk n, Op.startOp ev createOk n ∈ rest → ev.id ≠ k :=
      fun ev c n hm => hstart ev c n (List.mem_cons_of_mem op hm)
    exact absent_stays_absent k rest (applyOp store op) habs hrest

/-! ### Claims -/

/-- Claim C4: one reaper sweep removes exactly the records whose age
(`now - start_time`) exceeds the configured lifetime: every such record is
removed, every record whose age does not exceed it is still present, and a
removed (absent) record never reappears under later sweeps, votes, or starts
keyed to other (freshly issued) ids. -/
theorem cleaner_sweep_exact_and_monotone (store : Store) (now poll_duration k : Nat) :
    (∀ pd, store k = some pd → now - pd.start_time > poll_duration →
        sweep now poll_duration store k = none) ∧
      (∀ pd, store k = some pd → ¬ now - pd.start_time > poll_duration →
        sweep now poll_duration store k = some pd) ∧
      (∀ ops : List Op, store k = none →
        (∀ ev createOk n, Op.startOp ev createOk n ∈ ops → ev.id ≠ k) →
        applyOps ops store k = none) := by
  refine ⟨?_, ?_, fun ops h hc => absent_stays_absent k ops store h hc⟩
  · intro pd hpd hage
    unfold sweep
    rw [hpd]
    simp [hage]
  · intro pd hpd hage
    unfold sweep
    rw [hpd]
    simp [hage]

/-- Witness for C4 at concrete inputs: a record started at time 0 with
lifetime 300 is removed by a sweep at time 301 and kept by a sweep at time
100, and an absent key stays absent across a sweep. -/
theorem cleaner_sweep_exact_and_monotone_witness :
    sweep 301 300 (insertStore 1 ⟨0, ["a"], []⟩ (fun _ => none)) 1 = none ∧
      sweep 100 300 (insertStore 1 ⟨0, ["a"], []⟩ (fun _ => none)) 1 =
        some ⟨0, ["a"], []⟩ ∧
      applyOps [Op.sweepOp 301 300] (fun _ => none) 1 = none := by
  refine ⟨?_, ?_, ?_⟩
  · exact (cleaner_sweep_exact_and_monotone
      (insertStore 1 ⟨0, ["a"], []⟩ (fun _ => none)) 301 300 1).1 _ rfl (by decide)
  · exact (cleaner_sweep_exact_and_monotone
      (insertStore 1 ⟨0, ["a"], []⟩ (fun _ => none)) 100 300 1).2.1 _ rfl (by decide)
  · exact (cleaner_sweep_exact_and_monotone (fun _ => none) 0 0 1).2.2
      [Op.sweepOp 301 300] rfl (by intro ev c n hm; simp at hm)

/-- Claim C5: the poll record is inserted into the store only after the
initial display message has been successfully created (poll.rs 72-94): if the
`create_interaction_response` call fails the store is unchanged, and any
change to the store implies the call succeeded and `start` returned `Ok`. -/
theorem start_insert_only_after_display (ev : StartEvent) (createOk : Bool)
    (now : Nat) (store : Store) :
    (createOk = false → (start ev createOk now store).2 = store) ∧
      (∀ k, (start ev createOk now store).2 k ≠ store k →
        createOk = true ∧ (start ev createOk now store).1 = Except.ok ()) := by
  constructor
  · intro hc
    subst hc
    unfold start
    dsimp only
    repeat' split
    all_goals first
    | rfl
    | simp_all
  · intro k
    unfold start
    dsimp only
    repeat' split
    all_goals intro hk
    all_goals first
    | exact absurd rfl hk
    | exact ⟨by assumption, rfl⟩

/-- Witness for C5: with display creation failing the store is unchanged;
with it succeeding the start returns `Ok`. -/
theorem start_insert_only_after_display_witness :
    (start ⟨1, [⟨"options", some (Value.str "a")⟩]⟩ false 0 (fun _ => none)).2 1 =
        none ∧
      (true = true ∧
        (start ⟨1, [⟨"options", some (Value.str "a")⟩]⟩ true 0 (fun _ => none)).1 =
          Except.ok ()) := by
  have h1 := (start_insert_only_after_display
    ⟨1, [⟨"options", some (Value.str "a")⟩]⟩ false 0 (fun _ => none)).1 rfl
  have h2 := (start_insert_only_after_display
    ⟨1, [⟨"options", some (Value.str "a")⟩]⟩ true 0 (fun _ => none)).2 1
    (by decide)
  exact ⟨by rw [h1], h2⟩

/-- Claim C6: voting on a poll identifier absent from the store fails with
`UnknownPoll` ("unexpected interaction id", poll.rs 106-108) and leaves the
store unchanged. -/
theorem vote_unknown_poll (ev : VoteEvent) (id : Nat) (store : Store)
    (h : store id = none) :
    vote ev id store = (Except.error PollError.unknownPoll, store) := by
  unfold vote
  rw [h]

/-- Witness for C6 on an empty store. -/
theorem vote_unknown_poll_witness :
    vote ⟨some 7, "a", none, true⟩ 2 (fun _ => none) =
      (Except.error PollError.unknownPoll, fun _ => none) :=
  vote_unknown_poll ⟨some 7, "a", none, true⟩ 2 (fun _ => none) rfl

/-- Claim C7: after a voter casts a sequence of votes on one poll the ledger
maps them to exactly the option of the most recent vote (last-write-wins),
and inserting the same vote twice in a row leaves the ledger identical to
inserting it once (idempotence). -/
theorem vote_last_write_wins_idem (u : Nat) (votes : List (Nat × String))
    (opts : List String) (h : opts ≠ []) :
    lookupVote u (castVotes u opts votes) = some (opts.getLast h) ∧
      ∀ (o : String) (vs : List (Nat × String)),
        insertVote u o (insertVote u o vs) = insertVote u o vs :=
  ⟨lookupVote_castVotes u opts votes h, fun o vs => insertVote_idem u o vs⟩

/-- Witness for C7: voter 1 votes "a" then "b"; the ledger maps them to "b",
and the double insert of "b" equals the single insert. -/
theorem vote_last_write_wins_idem_witness :
    (["a", "b"] : List String) ≠ [] ∧
      lookupVote 1 (castVotes 1 ["a", "b"] []) = some "b" ∧
      insertVote 1 "b" (insertVote 1 "b" []) = insertVote 1 "b" [] := by
  have h := vote_last_write_wins_idem 1 [] ["a", "b"] (by decide)
  exact ⟨by decide, h.1, h.2 "b" []⟩

/-- Claim C8: with the "options" command option present and carrying a
string, `start` fails with `NoOptions` ("no options", poll.rs 58-60) exactly
when the token list is empty after dropping empty entries, and in that case
the store is unchanged. -/
theorem start_no_options_iff (ev : StartEvent) (createOk : Bool) (now : Nat)
    (store : Store) (opt : CommandOption) (raw : String)
    (hfind : ev.options.find? (fun o => o.name == "options") = some opt)
    (hval : opt.value = some (Value.str raw)) :
    ((start ev createOk now store).1 = Except.error PollError.noOptions ↔
        tokens raw = []) ∧
      (tokens raw = [] → (start ev createOk now store).2 = store) := by
  unfold start
  rw [hfind]
  dsimp only
  rw [hval]
  dsimp only
  rcases htok : tokens raw with _ | ⟨t, ts⟩
  · simp
  · cases createOk <;> simp

/-- Witness for C8: the input "," has no non-empty tokens, so `start` fails
with `NoOptions` and stores nothing. -/
theorem start_no_options_iff_witness :
    ((start ⟨1, [⟨"options", some (Value.str ",")⟩]⟩ true 0 (fun _ => none)).1 =
        Except.error PollError.noOptions ↔ tokens "," = []) ∧
      (tokens "," = [] →
        (start ⟨1, [⟨"options", some (Value.str ",")⟩]⟩ true 0 (fun _ => none)).2 =
          fun _ => none) :=
  start_no_options_iff ⟨1, [⟨"options", some (Value.str ",")⟩]⟩ true 0
    (fun _ => none) ⟨"options", some (Value.str ",")⟩ "," rfl rfl

/-- Claim C9: a vote event carrying no member identity fails with the
"missing member" error after the record lookup but before the ledger insert
(poll.rs 109-114): the store — the targeted record and every other entry — is
returned unchanged. -/
theorem vote_missing_member_no_mutation (ev : VoteEvent) (id : Nat)
    (store : Store) (pd : PollData) (hid : store id = some pd)
    (hm : ev.member = none) :
    vote ev id store = (Except.error PollError.missingMember, store) := by
  unfold vote
  rw [hid, hm]

/-- Witness for C9 on a one-record store. -/
theorem vote_missing_member_no_mutation_witness :
    vote ⟨none, "a", none, true⟩ 1 (insertStore 1 ⟨0, ["a"], []⟩ (fun _ => none)) =
      (Except.error PollError.missingMember,
        insertStore 1 ⟨0, ["a"], []⟩ (fun _ => none)) :=
  vote_missing_member_no_mutation ⟨none, "a", none, true⟩ 1
    (insertStore 1 ⟨0, ["a"], []⟩ (fun _ => none)) ⟨0, ["a"], []⟩ rfl rfl

/-- Claim C10: a successful vote on id `id` modifies only that record's vote
ledger — its `options` and `start_time` are unchanged — and every store entry
under any other identifier is unchanged. -/
theorem vote_success_frame (ev : VoteEvent) (id : Nat) (store : Store)
    (pd : PollData) (u : Nat) (hid : store id = some pd)
    (hm : ev.member = some u) (hok : (vote ev id store).1 = Except.ok ()) :
    (vote ev id store).2 id =
        some { start_time := pd.start_time, options := pd.options,
               votes := insertVote u ev.customId pd.votes } ∧
      ∀ k, k ≠ id → (vote ev id store).2 k = store k := by
  refine ⟨?_, vote_snd_frame ev id store⟩
  rw [vote_snd_eq_insert ev id store pd u hid hm]
  simp [insertStore]

/-- Witness for C10: a successful vote on poll 1 updates only that record's
ledger and leaves key 2 unchanged. -/
theorem vote_success_frame_witness :
    (vote ⟨some 7, "a", some (.regular [.actionRow [.button (some "a")]]), true⟩ 1
        (insertStore 1 ⟨0, ["a"], []⟩ (fun _ => none))).2 1 =
        some ⟨0, ["a"], insertVote 7 "a" []⟩ ∧
      (vote ⟨some 7, "a", some (.regular [.actionRow [.button (some "a")]]), true⟩ 1
        (insertStore 1 ⟨0, ["a"], []⟩ (fun _ => none))).2 2 =
        insertStore 1 ⟨0, ["a"], []⟩ (fun _ => none) 2 := by
  have h := vote_success_frame
    ⟨some 7, "a", some (.regular [.actionRow [.button (some "a")]]), true⟩ 1
    (insertStore 1 ⟨0, ["a"], []⟩ (fun _ => none)) ⟨0, ["a"], []⟩ 7 rfl rfl rfl
  exact ⟨h.1, h.2 2 (by decide)⟩

/-- Claim C1 as stated is false: `vote` performs no validation of the
submitted option identifier against the record's options (poll.rs 115 inserts
`component.custom_id` unconditionally).  Concretely: on a poll whose only
option is "a", a vote carrying custom id "z" succeeds and inserts "z" — an
identifier not among the options — into the ledger, instead of failing with
`UnknownOption` and leaving the ledger unchanged. -/
theorem vote_unknown_option_counterexample :
    (vote ⟨some 7, "z", some (.regular [.actionRow [.button (some "a")]]), true⟩ 1
        (insertStore 1 ⟨0, ["a"], []⟩ (fun _ => none))).1 = Except.ok () ∧
      (vote ⟨some 7, "z", some (.regular [.actionRow [.button (some "a")]]), true⟩ 1
        (insertStore 1 ⟨0, ["a"], []⟩ (fun _ => none))).2 1 =
        some ⟨0, ["a"], [(7, "z")]⟩ ∧
      "z" ∉ (["a"] : List String) :=
  ⟨rfl, rfl, by decide⟩

/-- Claim C1 amended: `vote` never fails with `UnknownOption`; whenever the
poll record exists and the member identity is present, the submitted option
identifier is inserted into the record's vote ledger unconditionally, with no
membership check against the record's options — so identifiers absent from
`options` can enter the ledger. -/
theorem vote_no_option_validation (ev : VoteEvent) (id : Nat) (store : Store)
    (pd : PollData) (u : Nat) (hid : store id = some pd)
    (hm : ev.member = some u) :
    (vote ev id store).2 id =
      some { start_time := pd.start_time, options := pd.options,
             votes := insertVote u ev.customId pd.votes } := by
  rw [vote_snd_eq_insert ev id store pd u hid hm]
  simp [insertStore]

/-- Witness for the amended C1: the forged id "z" lands in the ledger of a
poll whose only option is "a". -/
theorem vote_no_option_validation_witness :
    (vote ⟨some 7, "z", none, true⟩ 1
        (insertStore 1 ⟨0, ["a"], []⟩ (fun _ => none))).2 1 =
      some ⟨0, ["a"], insertVote 7 "z" []⟩ :=
  vote_no_option_validation ⟨some 7, "z", none, true⟩ 1
    (insertStore 1 ⟨0, ["a"], []⟩ (fun _ => none)) ⟨0, ["a"], []⟩ 7 rfl rfl

/-- Claim C2 as stated is false in its trimming part: the source never trims
the comma-separated entries (poll.rs 55-57 filters only exactly-empty
pieces).  On input "a, a" the stored options are [" a", "a"], not the ["a"]
that per-entry trimming (here `parseOptionsSpec`, written from the spec's
words) would produce. -/
theorem parse_trim_counterexample :
    parseOptions "a, a" = [" a", "a"] ∧ parseOptionsSpec "a, a" = ["a"] ∧
      ([" a", "a"] : List String) ≠ ["a"] :=
  ⟨by decide, by decide, by decide⟩

/-- Claim C2 amended: Start-Poll parsing splits on commas, drops entries that
are exactly empty (no trimming), deduplicates and sorts lexicographically;
the input "b,a,a,,b" yields exactly ["a", "b"], and any two inputs with the
same multiset of non-empty (untrimmed) tokens yield identical option
lists. -/
theorem parse_sorted_dedup_of_token_perm (s₁ s₂ : String)
    (h : (tokens s₁).Perm (tokens s₂)) :
    parseOptions s₁ = parseOptions s₂ ∧ parseOptions "b,a,a,,b" = ["a", "b"] := by
  constructor
  · unfold parseOptions
    rw [sortOptions_eq_of_perm h]
  · decide

/-- Witness for the amended C2: "b,a" and "a,b" have permuted token lists and
parse to the same option list. -/
theorem parse_sorted_dedup_of_token_perm_witness :
    (tokens "b,a").Perm (tokens "a,b") ∧ parseOptions "b,a" = parseOptions "a,b" :=
  ⟨by decide, (parse_sorted_dedup_of_token_perm "b,a" "a,b" (by decide)).1⟩

/-- Claim C3 as stated is false: because `vote` does not validate option
identifiers (C1), a reachable record can hold a ledger entry whose option is
not in `options`; such entries are counted by no option, so the tally sum
falls short of the number of distinct voters.  The record below is exactly
the store content after a vote with custom id "b" on a poll with options
["a"]: its tally sum is 0 while it has 1 distinct voter. -/
theorem tally_sum_counterexample :
    (vote ⟨some 7, "b", some (.regular [.actionRow [.button (some "a")]]), true⟩ 1
        (insertStore 1 ⟨0, ["a"], []⟩ (fun _ => none))).2 1 =
        some ⟨0, ["a"], [(7, "b")]⟩ ∧
      ((⟨0, ["a"], [(7, "b")]⟩ : PollData).options.map
          (⟨0, ["a"], [(7, "b")]⟩ : PollData).votes_for).sum = 0 ∧
      distinctVoters ⟨0, ["a"], [(7, "b")]⟩ = 1 ∧ (0 : Nat) ≠ 1 :=
  ⟨rfl, rfl, rfl, by decide⟩

/-- Claim C3 amended: for every poll record whose options are duplicate-free,
whose ledger holds one entry per voter, and whose ledger values are all
members of the options list (the data-model invariant that `vote` fails to
enforce), the sum over the options of the rendered per-option count equals
the number of distinct voters in the ledger. -/
theorem tally_sum_eq_distinct_voters (pd : PollData) (hopts : pd.options.Nodup)
    (hvals : ∀ p ∈ pd.votes, p.2 ∈ pd.options)
    (hkeys : (pd.votes.map Prod.fst).Nodup) :
    (pd.options.map pd.votes_for).sum = distinctVoters pd := by
  have h1 : (pd.options.map pd.votes_for).sum =
      (pd.options.map (fun o => pd.votes.countP (fun p => p.2 == o))).sum := by
    congr 1
    apply List.map_congr_left
    intro o _
    exact votes_for_eq_countP pd o
  rw [h1, sum_countP_eq_length pd.options hopts pd.votes hvals]
  unfold distinctVoters
  rw [List.dedup_eq_self.mpr hkeys, List.length_map]

/-- Witness for the amended C3: two distinct voters both vote "a" on options
["a", "b"]; the tally sum equals the two distinct voters. -/
theorem tally_sum_eq_distinct_voters_witness :
    ((⟨0, ["a", "b"], [(1, "a"), (2, "a")]⟩ : PollData).options.map
        (⟨0, ["a", "b"], [(1, "a"), (2, "a")]⟩ : PollData).votes_for).sum =
      distinctVoters ⟨0, ["a", "b"], [(1, "a"), (2, "a")]⟩ :=
  tally_sum_eq_distinct_voters ⟨0, ["a", "b"], [(1, "a"), (2, "a")]⟩
    (by decide) (by decide) (by decide)

end Slashbot
